import Mathlib

/-!
Shallow embedding of the core of `openduck.py`: the config store
(history, saved queries, connections), the query-run state machine of
`DuckCLI.action_run_query`, the column filter/sort state, and the
result projection of `DuckCLI.refresh_tab_table`.

Python strings are Lean `String`s, `str.strip()` is modelled by
`pyStrip`, timestamps are abstract `Nat`s, and cell values carried by a
result set are modelled by `Cell` (strings, integers, and SQL NULL /
Python `None`).  Blocking backend calls are modelled by passing the
backend's answer (`BackendOutcome`) into the run function; a
cancellation of the awaited task is the `RunSignal.cancelled` case.
-/

namespace Openduck

/-- Characters stripped by Python `str.strip()`. -/
def pyWs (c : Char) : Bool := c.isWhitespace

/-- Strip leading and trailing whitespace from a character list. -/
def stripList (l : List Char) : List Char :=
  ((l.dropWhile pyWs).reverse.dropWhile pyWs).reverse

/-- Model of Python `str.strip()`. -/
def pyStrip (s : String) : String := String.mk (stripList s.data)

/-- A cell value of a result set: a string, an integer, or NULL/None. -/
inductive Cell where
  | str (s : String)
  | int (n : Int)
  | null
deriving DecidableEq, Repr

/-- Python `str(v)` on a cell value. -/
def pyStr : Cell → String
  | .str s => s
  | .int n => toString n
  | .null => "None"

/-- Model of Python `str.lower()` (character-wise lowering). -/
def pyLower (s : String) : String := String.mk (s.data.map Char.toLower)

/-- Lexicographic comparison of character lists by code point,
modelling Python `<` on strings. -/
def charListLt : List Char → List Char → Bool
  | [], [] => false
  | [], _ :: _ => true
  | _ :: _, [] => false
  | c :: cs, d :: ds => if c = d then charListLt cs ds else decide (c < d)

/-- Model of Python `<` on strings. -/
def pyStrLt (a b : String) : Bool := charListLt a.data b.data

/-- One entry of `config["history"]` (`{"sql": ..., "timestamp": ...}`). -/
structure HistoryEntry where
  sql : String
  timestamp : Nat
deriving DecidableEq, Repr

/-- One entry of `config["saved_queries"]`. -/
structure SavedQuery where
  name : String
  sql : String
  timestamp : Nat
deriving DecidableEq, Repr

/-- One entry of `config["connections"]`. -/
structure ConnDescriptor where
  id : String
  display_name : String
  type_ : String
  host : String
  port : Nat
  database : String
deriving DecidableEq, Repr

/-- The `openduck.json` document. -/
structure Config where
  history : List HistoryEntry
  saved_queries : List SavedQuery
  connections : List ConnDescriptor
deriving DecidableEq, Repr

/-- `add_to_history(sql)`: append `{"sql": sql.strip(), "timestamp": now}`
to `config["history"]` (no limit applied). -/
def add_to_history (sql : String) (now : Nat) (config : Config) : Config :=
  { config with history := config.history ++ [⟨pyStrip sql, now⟩] }

/-- The loop body of `save_query`: scan `saved_queries`, replace the first
entry whose name matches in place; append a new entry when none matches. -/
def save_query_list (name sql : String) (now : Nat) :
    List SavedQuery → List SavedQuery
  | [] => [⟨name, pyStrip sql, now⟩]
  | q :: qs =>
    if q.name = name then ⟨name, pyStrip sql, now⟩ :: qs
    else q :: save_query_list name sql now qs

/-- `save_query(name, sql)` on the config document. -/
def save_query (name sql : String) (now : Nat) (config : Config) : Config :=
  { config with saved_queries := save_query_list name sql now config.saved_queries }

/-- Sort direction of a column (`col_states[i]["sort"]` is `None`, `"asc"`
or `"desc"`; the `Option` is the `None`). -/
inductive SortDir where
  | asc
  | desc
deriving DecidableEq, Repr

/-- One value of the `col_states` dict: `{"filter": ..., "sort": ...}`. -/
structure ColState where
  filter : String
  sort : Option SortDir
deriving DecidableEq, Repr

/-- The `col_states` dict, as an insertion-ordered association list
(Python dicts preserve insertion order). -/
abbrev ColStates := List (Nat × ColState)

/-- `{i: {"filter": "", "sort": None} for i in range(n)}` (line 896). -/
def defaultColStates (n : Nat) : ColStates :=
  (List.range n).map (fun i => (i, ⟨"", none⟩))

/-- Runtime handle stored in `DuckCLI.db_connections` for a connected
descriptor: a DuckDB attach alias for MySQL, a live client object
(abstracted to a tag) for MSSQL. -/
inductive ConnMeta where
  | mysql (aliasName : String)
  | mssql (handle : Nat)
deriving DecidableEq, Repr

/-- The state of one `QueryTab`: the SQL buffer (its `TextArea` text),
the optional bound connection id, and the cached result set
(`full_data`, `column_names`, `col_states`). -/
structure Tab where
  text : String
  connection_id : Option String
  full_data : List (List Cell)
  column_names : List String
  col_states : ColStates
deriving DecidableEq, Repr

/-- The rendered `DataTable`: column labels and stringified rows. -/
structure DisplayTable where
  columns : List String
  rows : List (List String)
deriving DecidableEq, Repr

/-- The app state touched by `action_run_query` for one tab: the config
document, the `db_connections` map, the tab's cache, the displayed
table, and the metadata bar text. -/
structure AppState where
  config : Config
  db_connections : List (String × ConnMeta)
  tab : Tab
  table : DisplayTable
  meta : String
deriving DecidableEq, Repr

/-- Substring containment on character lists (Python `needle in hay`). -/
def listContains (needle hay : List Char) : Bool :=
  (List.range (hay.length + 1)).any (fun k => needle.isPrefixOf (hay.drop k))

/-- Python `f in str(cell).lower()` for a lowercased filter text `f`. -/
def cellMatches (f : String) (c : Cell) : Bool :=
  listContains f.data (pyLower (pyStr c)).data

/-- The filter loop of `refresh_tab_table` (lines 974-979): for every
column with a non-empty filter, keep the rows whose stringified cell
contains the lowercased filter text. -/
def applyFilters (states : ColStates) (data : List (List Cell)) :
    List (List Cell) :=
  states.foldl
    (fun d p =>
      if p.2.filter ≠ "" then
        d.filter (fun r => cellMatches (pyLower p.2.filter) (r.getD p.1 .null))
      else d)
    data

/-- The first column state carrying an active sort, with its index
(the sort loop of `refresh_tab_table` breaks after the first hit). -/
def activeSort (states : ColStates) : Option (Nat × SortDir) :=
  match states.find? (fun p => p.2.sort.isSome) with
  | some (i, s) =>
    match s.sort with
    | some d => some (i, d)
    | none => none
  | none => none

/-- The Python sort key `x[i] if x[i] is not None else ""` of a row. -/
def rowKey (i : Nat) (r : List Cell) : Cell :=
  match r.getD i .null with
  | .null => .str ""
  | c => c

/-- Python `<` between two sort keys: defined between two strings or two
integers, a `TypeError` (`none`) between mixed types. -/
def pyLt : Cell → Cell → Option Bool
  | .str a, .str b => some (pyStrLt a b)
  | .int a, .int b => some (decide (a < b))
  | _, _ => none

/-- Stable insertion into a sorted list under a fallible strict
comparison; `none` models a `TypeError` raised while comparing.
`x` is placed before the first element not strictly below it. -/
def insertM (lt : α → α → Option Bool) (x : α) : List α → Option (List α)
  | [] => some [x]
  | y :: ys => do
    let b ← lt y x
    if b then
      let r ← insertM lt x ys
      pure (y :: r)
    else
      pure (x :: y :: ys)

/-- Stable sort under a fallible strict comparison, modelling Python
`list.sort(key=...)` (which is stable and raises if the keys are not
comparable; any two stable sorts agree when every comparison is
defined). -/
def sortM (lt : α → α → Option Bool) : List α → Option (List α)
  | [] => some []
  | x :: xs => do
    let r ← sortM lt xs
    insertM lt x r

/-- The row comparison of `refresh_tab_table` line 986:
`key=lambda x: x[i] if x[i] is not None else ""`, with
`reverse=(s["sort"]=="desc")` flipping the comparison (Python's
`reverse=True` keeps the sort stable). -/
def rowLt (i : Nat) (d : SortDir) (x y : List Cell) : Option Bool :=
  match d with
  | .asc => pyLt (rowKey i x) (rowKey i y)
  | .desc => pyLt (rowKey i y) (rowKey i x)

/-- The data rows produced by `refresh_tab_table` before rendering:
filters first, then the (at most one) active sort.  `none` models the
`TypeError` Python raises when the sort compares incomparable keys. -/
def projectRows (tab : Tab) : Option (List (List Cell)) :=
  let d := applyFilters tab.col_states tab.full_data
  match activeSort tab.col_states with
  | none => some d
  | some (i, dir) => sortM (rowLt i dir) d

/-- Column label with sort and filter indicators (lines 993-1003). -/
def labelOf (name : String) (s : ColState) : String :=
  name ++
    (match s.sort with
     | some .asc => " ▲"
     | some .desc => " ▼"
     | none => "") ++
    (if s.filter ≠ "" then " 🔍" else "")

/-- Rendered cell text: `str(v) if v is not None else "NULL"` (line 1009). -/
def renderCell : Cell → String
  | .null => "NULL"
  | c => pyStr c

/-- `refresh_tab_table`: rebuild the displayed table from the tab's
cache; `none` when the sort raises a `TypeError`. -/
def refresh_tab_table (tab : Tab) : Option DisplayTable := do
  let d ← projectRows tab
  pure
    { columns :=
        tab.column_names.enum.map
          (fun p => labelOf p.2 (((tab.col_states.lookup p.1).getD ⟨"", none⟩)))
      rows := d.map (fun r => r.map renderCell) }

/-- The answer of the backend reached by the `execute()` closure: a
row-producing result, a statement with no result (`cursor.description`
is `None`/empty), or a raised error. -/
inductive BackendOutcome where
  | rows (cols : List String) (data : List (List Cell))
  | noDescription
  | error (msg : String)
deriving DecidableEq, Repr

/-- What the awaited `asyncio.to_thread(execute)` call delivers: either
the thread completed with the backend's outcome, or the task was
cancelled while awaiting (`asyncio.CancelledError`). -/
inductive RunSignal where
  | completed (outcome : BackendOutcome)
  | cancelled
deriving DecidableEq, Repr

/-- Which backend `execute()` talks to, per lines 861-880:
`conn_meta = self.db_connections.get(conn_id) if conn_id else None`,
and only `conn_meta and conn_meta["type"] == "mssql"` leaves the
embedded DuckDB connection (`self.con`); a missing handle or a MySQL
alias both take the DuckDB branch. -/
inductive Backend where
  | embedded
  | mssqlBackend (handle : Nat)
deriving DecidableEq, Repr

/-- Resolve the tab's `connection_id` against `db_connections`. -/
def routeBackend (conn_id : Option String) (conns : List (String × ConnMeta)) :
    Backend :=
  match conn_id with
  | none => .embedded
  | some cid =>
    match conns.lookup cid with
    | some (.mssql h) => .mssqlBackend h
    | _ => .embedded

/-- The value of the 4-tuple returned by the `execute()` closure
(minus the ambient duration): `data`, `cols`, and the third component
that the caller binds to `_`. -/
structure ExecResult where
  data : List (List Cell)
  cols : List String
  info : Option (List (List String))
deriving DecidableEq, Repr

/-- The `execute()` closure (lines 865-890), as a function of the
backend's outcome.  On an empty `description` the MSSQL branch returns
`([], ["Info"], None)` and the DuckDB branch `([], ["Info"], [["Success"]])`;
a backend error propagates as an exception. -/
def executeThread (backend : Backend) (outcome : BackendOutcome) :
    Except String ExecResult :=
  match outcome with
  | .error msg => .error msg
  | .noDescription =>
    match backend with
    | .mssqlBackend _ => .ok ⟨[], ["Info"], none⟩
    | .embedded => .ok ⟨[], ["Info"], some [["Success"]]⟩
  | .rows cols data => .ok ⟨data, cols, none⟩

/-- `DuckCLI.action_run_query` (lines 834-916) for the active tab.
`now` is the ambient clock read by `add_to_history`; `signal` is what
the awaited backend call delivers.  The metadata-bar text on success is
abstracted to its leading row count (timing and clock are ambient);
`tbl.loading` and `tab.running_task` are transient and not modelled. -/
def action_run_query (st : AppState) (now : Nat) (signal : RunSignal) :
    AppState :=
  let sql := pyStrip st.tab.text
  if sql = "" then st
  else
    let config1 := add_to_history sql now st.config
    let backend := routeBackend st.tab.connection_id st.db_connections
    match signal with
    | .cancelled =>
      { st with config := config1, meta := "Query cancelled" }
    | .completed outcome =>
      match executeThread backend outcome with
      | .error e =>
        { st with
            config := config1
            table := ⟨["Error"], [[e]]⟩
            meta := "Error occurred" }
      | .ok r =>
        let tab1 : Tab :=
          { st.tab with
              column_names := r.cols
              full_data := r.data
              col_states := defaultColStates r.cols.length }
        match refresh_tab_table tab1 with
        | some t =>
          { st with
              config := config1
              tab := tab1
              table := t
              meta := "Rows: " ++ toString r.data.length }
        | none =>
          -- a TypeError raised inside refresh_tab_table would be caught
          -- by the same `except Exception` handler; unreachable here
          -- because the fresh col_states carry no sort
          { st with
              config := config1
              tab := tab1
              table := ⟨["Error"], [["TypeError"]]⟩
              meta := "Error occurred" }

/-- The sort cycle of `on_data_table_header_selected`:
None → asc → desc → None. -/
def cycleSort : Option SortDir → Option SortDir
  | none => some .asc
  | some .asc => some .desc
  | some .desc => none

/-- `DuckCLI.on_data_table_header_selected` on the `col_states` dict
(lines 1013-1040): read the clicked column's current sort, clear the
sort of every column, then store the cycled direction on the clicked
column. -/
def on_header_selected (states : ColStates) (idx : Nat) : ColStates :=
  let current := (states.lookup idx).bind (fun s => s.sort)
  let newSort := cycleSort current
  (states.map (fun p => (p.1, { p.2 with sort := none }))).map
    (fun p => if p.1 = idx then (p.1, { p.2 with sort := newSort }) else p)

/-- The SQL preloaded into the first tab by `DuckCLI.on_mount`
(lines 717-720): the last history entry's text, or `""` with an empty
history. -/
def on_mount_initial_sql (config : Config) : String :=
  match config.history.getLast? with
  | some e => e.sql
  | none => ""

/-- The first `QueryTab` opened by `on_mount`
(`add_new_tab("Main", sql)`, no bound connection). -/
def on_mount_first_tab (config : Config) : Tab :=
  { text := on_mount_initial_sql config
    connection_id := none
    full_data := []
    column_names := []
    col_states := [] }

/-! ### A total stable sort, and the spec-side projection

`sSort` is plain stable insertion sort under a total strict comparison;
lemmas below show it is a stable sort (it permutes its input, its
output is ordered, and it preserves the relative order inside every key
class).  `projectSpec` follows the spec's words for the ResultView
projection so that claim C9 can compare the code against it. -/

/-- Insert `x` before the first element not strictly below it. -/
def sInsert (lt : α → α → Bool) (x : α) : List α → List α
  | [] => [x]
  | y :: ys => if lt y x then y :: sInsert lt x ys else x :: y :: ys

/-- Stable insertion sort under a total strict comparison. -/
def sSort (lt : α → α → Bool) : List α → List α
  | [] => []
  | x :: xs => sInsert lt x (sSort lt xs)

/-- Whether a cell is a string or NULL (not an integer). -/
def strOrNull : Cell → Bool
  | .int _ => false
  | _ => true

/-- Follows the spec's words: the sort key of a row is "that column's
value, treating a null/missing cell as the empty string/lowest key".
Only used on string/NULL columns; an integer cell falls back to `""`. -/
def specKey (i : Nat) (r : List Cell) : String :=
  match r.getD i .null with
  | .str s => s
  | _ => ""

/-- Follows the spec's words: strict comparison of two rows by the
active column's key, "ascending or descending per the column's sort
direction". -/
def specRowLt (i : Nat) (d : SortDir) (x y : List Cell) : Bool :=
  match d with
  | .asc => pyStrLt (specKey i x) (specKey i y)
  | .desc => pyStrLt (specKey i y) (specKey i x)

/-- Follows the spec's words for `ResultView.project`: keep the
filtered rows in cache order when no column is sorted, otherwise
stable-sort them by the active column's key. -/
def projectSpec (tab : Tab) : List (List Cell) :=
  let d := applyFilters tab.col_states tab.full_data
  match activeSort tab.col_states with
  | none => d
  | some (i, dir) => sSort (specRowLt i dir) d

/-! ### Multi-run driver and counting helpers -/

/-- One user-triggered run: the SQL typed into the buffer, the ambient
clock value, and what the backend call delivers. -/
structure RunReq where
  sql : String
  now : Nat
  signal : RunSignal
deriving DecidableEq, Repr

/-- Type `sql` into the active tab's buffer. -/
def setText (st : AppState) (sql : String) : AppState :=
  { st with tab := { st.tab with text := sql } }

/-- Run a sequence of queries, retyping the buffer before each run. -/
def runMany (st : AppState) : List RunReq → AppState
  | [] => st
  | r :: rs => runMany (action_run_query (setText st r.sql) r.now r.signal) rs

/-- Number of saved queries carrying a given name. -/
def countName (name : String) (qs : List SavedQuery) : Nat :=
  (qs.filter (fun q => q.name = name)).length

/-! ### Concrete fixtures used by witnesses and counterexamples -/

/-- A tab holding a one-row cached result and a non-empty SQL buffer. -/
def exampleTab : Tab :=
  { text := "SELECT 1"
    connection_id := none
    full_data := [[Cell.str "a"]]
    column_names := ["c"]
    col_states := [(0, ⟨"", none⟩)] }

/-- An app state around `exampleTab` with an empty config and no live
connections. -/
def exampleState : AppState :=
  { config := ⟨[], [], []⟩
    db_connections := []
    tab := exampleTab
    table := ⟨["c"], [["a"]]⟩
    meta := "Ready" }

/-- `exampleState` with the tab bound to the never-connected
descriptor id "c1". -/
def boundState : AppState :=
  { exampleState with tab := { exampleTab with connection_id := some "c1" } }

/-- `exampleState` with a buffer that is empty after trimming. -/
def emptyTextState : AppState :=
  { exampleState with tab := { exampleTab with text := "   " } }

/-- A tab whose sorted column mixes an integer cell with a NULL cell. -/
def mixedTab : Tab :=
  { text := "q"
    connection_id := none
    full_data := [[Cell.int 1], [Cell.null]]
    column_names := ["c"]
    col_states := [(0, ⟨"", some .asc⟩)] }

/-- A tab whose sorted column holds only strings and NULLs. -/
def sortedTab : Tab :=
  { text := "q"
    connection_id := none
    full_data := [[Cell.str "b"], [Cell.null], [Cell.str "a"]]
    column_names := ["c"]
    col_states := [(0, ⟨"", some .asc⟩)] }

/-! ### Properties of `pyStrip` -/

theorem getLast?_cons_of_ne_nil {x : α} {xs : List α} (h : xs ≠ []) :
    (x :: xs).getLast? = xs.getLast? := by
  cases xs with
  | nil => exact absurd rfl h
  | cons y ys => exact List.getLast?_cons_cons

theorem getLast?_dropWhile (p : α → Bool) (l : List α)
    (h : l.dropWhile p ≠ []) : (l.dropWhile p).getLast? = l.getLast? := by
  induction l with
  | nil => simp at h
  | cons x xs ih =>
    by_cases hp : p x
    · rw [List.dropWhile_cons_of_pos hp] at h ⊢
      have hxs : xs ≠ [] := by
        intro hn
        rw [hn] at h
        simp at h
      rw [ih h, getLast?_cons_of_ne_nil hxs]
    · rw [List.dropWhile_cons_of_neg hp]

theorem dropWhile_eq_self_of_head? {p : α → Bool} {l : List α} {c : α}
    (hc : l.head? = some c) (hpc : p c = false) : l.dropWhile p = l := by
  cases l with
  | nil => rfl
  | cons x xs =>
    have hx : x = c := by simpa using hc
    subst hx
    exact List.dropWhile_cons_of_neg (by simp [hpc])

theorem stripList_idem (l : List Char) :
    stripList (stripList l) = stripList l := by
  unfold stripList
  by_cases hb : (l.dropWhile pyWs).reverse.dropWhile pyWs = []
  · rw [hb]
    rfl
  · have ha : l.dropWhile pyWs ≠ [] := by
      intro hn
      rw [hn] at hb
      simp at hb
    -- the head of the fully stripped list is the head of the
    -- left-stripped list, hence not whitespace
    have hhead :
        ((l.dropWhile pyWs).reverse.dropWhile pyWs).reverse.head?
          = (l.dropWhile pyWs).head? := by
      rw [List.head?_reverse, getLast?_dropWhile _ _ hb,
        List.getLast?_reverse]
    have hhead2 : ∃ c, (l.dropWhile pyWs).head? = some c ∧ pyWs c = false := by
      cases hcl : (l.dropWhile pyWs).head? with
      | none =>
        rw [List.head?_eq_none_iff] at hcl
        exact absurd hcl ha
      | some c =>
        refine ⟨c, rfl, ?_⟩
        have hh := List.head_dropWhile_not pyWs l ha
        have hcl2 : (l.dropWhile pyWs).head ha = c := by
          rw [List.head?_eq_head ha] at hcl
          exact Option.some.inj hcl
        rw [← hcl2]
        exact hh
    obtain ⟨c, hc1, hc2⟩ := hhead2
    have step1 :
        (((l.dropWhile pyWs).reverse.dropWhile pyWs).reverse).dropWhile pyWs
          = ((l.dropWhile pyWs).reverse.dropWhile pyWs).reverse :=
      dropWhile_eq_self_of_head? (hhead.trans hc1) hc2
    rw [step1, List.reverse_reverse]
    have step2 :
        ((l.dropWhile pyWs).reverse.dropWhile pyWs).dropWhile pyWs
          = (l.dropWhile pyWs).reverse.dropWhile pyWs := by
      have hh := List.head_dropWhile_not pyWs (l.dropWhile pyWs).reverse hb
      exact dropWhile_eq_self_of_head? (List.head?_eq_head hb) hh
    rw [step2]

theorem pyStrip_idem (s : String) : pyStrip (pyStrip s) = pyStrip s := by
  unfold pyStrip
  exact congrArg String.mk (stripList_idem s.data)

/-! ### Properties of the stable sort -/

theorem mem_sInsert {lt : α → α → Bool} {x a : α} {l : List α} :
    a ∈ sInsert lt x l ↔ a = x ∨ a ∈ l := by
  induction l with
  | nil => simp [sInsert]
  | cons y ys ih =>
    by_cases h : lt y x <;> simp [sInsert, h, ih] <;> tauto

theorem mem_sSort {lt : α → α → Bool} {a : α} {l : List α}
    (h : a ∈ sSort lt l) : a ∈ l := by
  induction l with
  | nil => simp [sSort] at h
  | cons x xs ih =>
    rw [sSort, mem_sInsert] at h
    rcases h with h | h
    · simp [h]
    · simp [ih h]

theorem sInsert_perm (lt : α → α → Bool) (x : α) (l : List α) :
    (sInsert lt x l).Perm (x :: l) := by
  induction l with
  | nil => simp [sInsert]
  | cons y ys ih =>
    by_cases h : lt y x
    · rw [sInsert, if_pos h]
      exact (ih.cons y).trans (List.Perm.swap x y ys)
    · rw [sInsert, if_neg h]

/-- `sSort` permutes its input. -/
theorem sSort_perm (lt : α → α → Bool) (l : List α) :
    (sSort lt l).Perm l := by
  induction l with
  | nil => simp [sSort]
  | cons x xs ih =>
    exact (sInsert_perm lt x (sSort lt xs)).trans (ih.cons x)

theorem pairwise_sInsert {lt : α → α → Bool}
    (hasym : ∀ a b, lt a b = true → lt b a = false)
    (htrans : ∀ a b c, lt b a = false → lt c b = false → lt c a = false)
    (x : α) {l : List α} (hl : l.Pairwise (fun a b => lt b a = false)) :
    (sInsert lt x l).Pairwise (fun a b => lt b a = false) := by
  induction l with
  | nil => simp [sInsert]
  | cons y ys ih =>
    rw [List.pairwise_cons] at hl
    obtain ⟨hy, hys⟩ := hl
    by_cases h : lt y x
    · rw [sInsert, if_pos h, List.pairwise_cons]
      refine ⟨?_, ih hys⟩
      intro w hw
      rcases mem_sInsert.mp hw with hw | hw
      · rw [hw]
        exact hasym _ _ h
      · exact hy w hw
    · rw [sInsert, if_neg h, List.pairwise_cons]
      refine ⟨?_, List.pairwise_cons.mpr ⟨hy, hys⟩⟩
      intro w hw
      rcases List.mem_cons.mp hw with hw | hw
      · rw [hw]
        exact Bool.eq_false_iff.mpr h
      · exact htrans x y w (Bool.eq_false_iff.mpr h) (hy w hw)

/-- `sSort` orders its output: no later element is strictly below an
earlier one. -/
theorem pairwise_sSort {lt : α → α → Bool}
    (hasym : ∀ a b, lt a b = true → lt b a = false)
    (htrans : ∀ a b c, lt b a = false → lt c b = false → lt c a = false)
    (l : List α) :
    (sSort lt l).Pairwise (fun a b => lt b a = false) := by
  induction l with
  | nil => simp [sSort]
  | cons x xs ih => exact pairwise_sInsert hasym htrans x ih

theorem filter_sInsert_neg {lt : α → α → Bool} {p : α → Bool} {x : α}
    (h : p x = false) (l : List α) :
    (sInsert lt x l).filter p = l.filter p := by
  induction l with
  | nil => simp [sInsert, h]
  | cons y ys ih =>
    by_cases hyx : lt y x
    · rw [sInsert, if_pos hyx]
      cases hpy : p y <;> simp [List.filter_cons, hpy, ih]
    · rw [sInsert, if_neg hyx]
      simp [List.filter_cons, h]

theorem filter_sInsert_pos {lt : α → α → Bool} {p : α → Bool} {x : α}
    (h : p x = true) {l : List α}
    (h2 : ∀ z ∈ l, lt z x = true → p z = false) :
    (sInsert lt x l).filter p = x :: l.filter p := by
  induction l with
  | nil => simp [sInsert, h]
  | cons y ys ih =>
    by_cases hyx : lt y x
    · have hpy : p y = false := h2 y (List.mem_cons_self y ys) hyx
      rw [sInsert, if_pos hyx]
      simp [List.filter_cons, hpy,
        ih (fun z hz => h2 z (List.mem_cons_of_mem y hz))]
    · rw [sInsert, if_neg hyx]
      simp [List.filter_cons, h]

/-- Stability of `sSort` for a key-driven comparison: inside every key
class the relative order of the input is preserved. -/
theorem sSort_filter_key {lt : α → α → Bool} {key : α → β} [DecidableEq β]
    (hlt : ∀ a b, lt a b = true → key a ≠ key b) (k : β) (l : List α) :
    (sSort lt l).filter (fun a => decide (key a = k))
      = l.filter (fun a => decide (key a = k)) := by
  induction l with
  | nil => simp [sSort]
  | cons x xs ih =>
    rw [sSort]
    by_cases hx : key x = k
    · rw [filter_sInsert_pos (by simp [hx])
        (fun z _ hzx => by
          simp only [decide_eq_false_iff_not]
          intro hk
          exact hlt z x hzx (hk.trans hx.symm))]
      rw [ih, List.filter_cons]
      simp [hx]
    · rw [filter_sInsert_neg (by simp [hx]), ih, List.filter_cons]
      simp [hx]

theorem insertM_eq_sInsert {lt : α → α → Option Bool} {f : α → α → Bool}
    {x : α} {l : List α} (h : ∀ y ∈ l, lt y x = some (f y x)) :
    insertM lt x l = some (sInsert f x l) := by
  induction l with
  | nil => rfl
  | cons y ys ih =>
    have hys := ih (fun z hz => h z (List.mem_cons_of_mem y hz))
    rw [insertM, h y (List.mem_cons_self y ys)]
    by_cases hf : f y x <;> simp [hf, hys, sInsert]

theorem sortM_eq_sSort {lt : α → α → Option Bool} {f : α → α → Bool}
    {l : List α} (h : ∀ x ∈ l, ∀ y ∈ l, lt x y = some (f x y)) :
    sortM lt l = some (sSort f l) := by
  induction l with
  | nil => rfl
  | cons x xs ih =>
    have hxs : sortM lt xs = some (sSort f xs) :=
      ih (fun a ha b hb =>
        h a (List.mem_cons_of_mem x ha) b (List.mem_cons_of_mem x hb))
    have hins := insertM_eq_sInsert (f := f) (x := x) (l := sSort f xs)
      (fun y hy =>
        h y (List.mem_cons_of_mem x (mem_sSort hy)) x (List.mem_cons_self x xs))
    rw [sortM, hxs]
    simp [hins, sSort]

/-! ### Behaviour of `action_run_query` -/

theorem mem_defaultColStates {n : Nat} {p : Nat × ColState}
    (hp : p ∈ defaultColStates n) : p.2 = ⟨"", none⟩ := by
  unfold defaultColStates at hp
  obtain ⟨i, _, rfl⟩ := List.mem_map.mp hp
  rfl

theorem activeSort_default (n : Nat) :
    activeSort (defaultColStates n) = none := by
  unfold activeSort
  rw [List.find?_eq_none.mpr]
  intro p hp
  rw [mem_defaultColStates hp]
  simp

theorem applyFilters_no_filter {states : ColStates}
    (h : ∀ p ∈ states, p.2.filter = "") (data : List (List Cell)) :
    applyFilters states data = data := by
  induction states generalizing data with
  | nil => rfl
  | cons q qs ih =>
    have hq : q.2.filter = "" := h q (List.mem_cons_self q qs)
    unfold applyFilters
    rw [List.foldl_cons, if_neg (by simp [hq])]
    exact ih (fun p hp => h p (List.mem_cons_of_mem q hp)) data

theorem projectRows_default {tab : Tab} {n : Nat}
    (hcs : tab.col_states = defaultColStates n) :
    projectRows tab = some tab.full_data := by
  unfold projectRows
  rw [hcs, activeSort_default,
    applyFilters_no_filter
      (fun p hp => congrArg ColState.filter (mem_defaultColStates hp))]

theorem refresh_default {tab : Tab} {n : Nat}
    (hcs : tab.col_states = defaultColStates n) :
    refresh_tab_table tab = some
      { columns :=
          tab.column_names.enum.map
            (fun p => labelOf p.2 (((tab.col_states.lookup p.1).getD ⟨"", none⟩)))
        rows := tab.full_data.map (fun r => r.map renderCell) } := by
  unfold refresh_tab_table
  rw [projectRows_default hcs]
  rfl

theorem run_empty (st : AppState) (now : Nat) (sig : RunSignal)
    (h : pyStrip st.tab.text = "") :
    action_run_query st now sig = st := by
  unfold action_run_query
  rw [if_pos h]

theorem run_cancelled (st : AppState) (now : Nat)
    (h : pyStrip st.tab.text ≠ "") :
    action_run_query st now .cancelled
      = { st with
            config := add_to_history (pyStrip st.tab.text) now st.config
            meta := "Query cancelled" } := by
  unfold action_run_query
  rw [if_neg h]

theorem run_error (st : AppState) (now : Nat) (msg : String)
    (h : pyStrip st.tab.text ≠ "") :
    action_run_query st now (.completed (.error msg))
      = { st with
            config := add_to_history (pyStrip st.tab.text) now st.config
            table := ⟨["Error"], [[msg]]⟩
            meta := "Error occurred" } := by
  unfold action_run_query
  rw [if_neg h]
  rfl

theorem run_rows_tab (st : AppState) (now : Nat) (cols : List String)
    (data : List (List Cell)) (h : pyStrip st.tab.text ≠ "") :
    (action_run_query st now (.completed (.rows cols data))).tab
      = { st.tab with
            column_names := cols
            full_data := data
            col_states := defaultColStates cols.length } := by
  unfold action_run_query
  rw [if_neg h]
  dsimp only
  simp only [executeThread]
  rw [refresh_default rfl]

theorem run_config (st : AppState) (now : Nat) (sig : RunSignal)
    (h : pyStrip st.tab.text ≠ "") :
    (action_run_query st now sig).config
      = add_to_history (pyStrip st.tab.text) now st.config := by
  cases sig with
  | cancelled => rw [run_cancelled st now h]
  | completed outcome =>
    cases outcome with
    | error msg => rw [run_error st now msg h]
    | rows cols data =>
      unfold action_run_query
      rw [if_neg h]
      dsimp only
      simp only [executeThread]
      rw [refresh_default rfl]
    | noDescription =>
      unfold action_run_query
      rw [if_neg h]
      dsimp only
      cases routeBackend st.tab.connection_id st.db_connections with
      | embedded =>
        simp only [executeThread]
        rw [refresh_default rfl]
      | mssqlBackend hdl =>
        simp only [executeThread]
        rw [refresh_default rfl]

theorem run_history (st : AppState) (now : Nat) (sig : RunSignal)
    (h : pyStrip st.tab.text ≠ "") :
    (action_run_query st now sig).config.history
      = st.config.history ++ [⟨pyStrip st.tab.text, now⟩] := by
  rw [run_config st now sig h]
  unfold add_to_history
  rw [pyStrip_idem]

/-! ### Agreement of the Python sort with the spec-side sort on
string/NULL columns -/

theorem rowKey_eq_spec {i : Nat} {x : List Cell}
    (hx : strOrNull (x.getD i .null) = true) :
    rowKey i x = .str (specKey i x) := by
  unfold rowKey specKey
  cases hc : x.getD i Cell.null with
  | str s => rfl
  | int n =>
    rw [hc] at hx
    simp [strOrNull] at hx
  | null => rfl

theorem rowLt_eq_spec {i : Nat} {d : SortDir} {x y : List Cell}
    (hx : strOrNull (x.getD i .null) = true)
    (hy : strOrNull (y.getD i .null) = true) :
    rowLt i d x y = some (specRowLt i d x y) := by
  have kx := rowKey_eq_spec hx
  have ky := rowKey_eq_spec hy
  cases d <;> simp [rowLt, kx, ky, pyLt, specRowLt]

/-! ### Claims -/

/-- C1 counterexample: a run whose tab is bound to descriptor id "c1"
with no live runtime handle is not refused with a routing error: the
history is mutated (the attempt is appended), the result cache is
overwritten with the backend's rows, and routing silently resolves to
the embedded engine — contradicting the claim that the session stays
idle with no history or cache mutation and no execution. -/
theorem C1_counterexample :
    (action_run_query boundState 7
        (.completed (.rows ["x"] [[Cell.int 1]]))).config.history
      ≠ boundState.config.history ∧
    (action_run_query boundState 7
        (.completed (.rows ["x"] [[Cell.int 1]]))).tab.full_data
      = [[Cell.int 1]] ∧
    routeBackend boundState.tab.connection_id boundState.db_connections
      = .embedded := by
  decide

/-- C1 (amended): a run whose session is bound to a descriptor id with
no live runtime handle is silently routed to the embedded engine — no
routing error exists — and the run proceeds as a normal execution: the
trimmed SQL is appended to the history. -/
theorem C1_missing_handle (st : AppState) (now : Nat) (sig : RunSignal)
    (cid : String) (hcid : st.tab.connection_id = some cid)
    (habsent : st.db_connections.lookup cid = none)
    (hsql : pyStrip st.tab.text ≠ "") :
    routeBackend st.tab.connection_id st.db_connections = .embedded ∧
    (action_run_query st now sig).config.history
      = st.config.history ++ [⟨pyStrip st.tab.text, now⟩] := by
  refine ⟨?_, run_history st now sig hsql⟩
  rw [hcid]
  simp only [routeBackend, habsent]

/-- Witness for C1: the amended statement holds at `boundState`. -/
theorem C1_missing_handle_witness :
    boundState.tab.connection_id = some "c1" ∧
    boundState.db_connections.lookup "c1" = none ∧
    pyStrip boundState.tab.text ≠ "" ∧
    (routeBackend boundState.tab.connection_id boundState.db_connections
        = .embedded ∧
      (action_run_query boundState 7 .cancelled).config.history
        = boundState.config.history ++ [⟨pyStrip boundState.tab.text, 7⟩]) :=
  ⟨rfl, rfl, by decide,
    C1_missing_handle boundState 7 .cancelled "c1" rfl rfl (by decide)⟩

/-- C2: the code contradicts the claimed single informational row.  On
a statement with no row-producing result the execute closure does build
the informational row `[["Success"]]` under the synthetic column
`["Info"]`, but the caller discards that third component, so the cache
ends up with the "Info" column and zero rows. -/
theorem C2_no_description_cache :
    executeThread .embedded .noDescription
      = .ok ⟨[], ["Info"], some [["Success"]]⟩ ∧
    (action_run_query exampleState 3
        (.completed .noDescription)).tab.column_names = ["Info"] ∧
    (action_run_query exampleState 3
        (.completed .noDescription)).tab.full_data = ([] : List (List Cell)) :=
  ⟨rfl, by decide, by decide⟩

/-- C3 counterexample: with a prior cached result, a failing execution
replaces only the displayed table with the Error projection; the
session's cached result set keeps its prior column names, rows and
column state map, so the cache is not replaced as the claim states. -/
theorem C3_counterexample :
    (action_run_query exampleState 5
        (.completed (.error "Syntax error"))).tab.column_names = ["c"] ∧
    (action_run_query exampleState 5
        (.completed (.error "Syntax error"))).tab.full_data
      = [[Cell.str "a"]] ∧
    (action_run_query exampleState 5
        (.completed (.error "Syntax error"))).tab.column_names ≠ ["Error"] ∧
    (action_run_query exampleState 5
        (.completed (.error "Syntax error"))).table
      = ⟨["Error"], [["Syntax error"]]⟩ := by
  decide

/-- C3 (amended): on a backend error the displayed table is replaced by
the single-column Error projection holding the error text and the
status reads "Error occurred", while the cached rows, column names and
column state map keep their prior values; the history entry for the
attempt is retained. -/
theorem C3_error_display (st : AppState) (now : Nat) (msg : String)
    (h : pyStrip st.tab.text ≠ "") :
    (action_run_query st now (.completed (.error msg))).table
      = ⟨["Error"], [[msg]]⟩ ∧
    (action_run_query st now (.completed (.error msg))).meta
      = "Error occurred" ∧
    (action_run_query st now (.completed (.error msg))).tab = st.tab ∧
    (action_run_query st now (.completed (.error msg))).config.history
      = st.config.history ++ [⟨pyStrip st.tab.text, now⟩] := by
  refine ⟨?_, ?_, ?_, run_history st now (.completed (.error msg)) h⟩ <;>
    rw [run_error st now msg h]

/-- Witness for C3: the amended statement holds at `exampleState`. -/
theorem C3_error_display_witness :
    pyStrip exampleState.tab.text ≠ "" ∧
    ((action_run_query exampleState 5 (.completed (.error "boom"))).table
        = ⟨["Error"], [["boom"]]⟩ ∧
      (action_run_query exampleState 5 (.completed (.error "boom"))).meta
        = "Error occurred" ∧
      (action_run_query exampleState 5 (.completed (.error "boom"))).tab
        = exampleState.tab ∧
      (action_run_query exampleState 5
          (.completed (.error "boom"))).config.history
        = exampleState.config.history
            ++ [⟨pyStrip exampleState.tab.text, 5⟩]) :=
  ⟨by decide, C3_error_display exampleState 5 "boom" (by decide)⟩

/-- C4: cancelling an in-flight execution leaves the cached rows,
column names and column state map (indeed the whole tab) and the
displayed table exactly as they were, and reports the status
"Query cancelled", which is distinct from the failure status
"Error occurred". -/
theorem C4_cancel_preserves_cache (st : AppState) (now : Nat)
    (h : pyStrip st.tab.text ≠ "") :
    (action_run_query st now .cancelled).tab = st.tab ∧
    (action_run_query st now .cancelled).table = st.table ∧
    (action_run_query st now .cancelled).meta = "Query cancelled" ∧
    "Query cancelled" ≠ "Error occurred" := by
  rw [run_cancelled st now h]
  exact ⟨rfl, rfl, rfl, by decide⟩

/-- Witness for C4 at `exampleState`. -/
theorem C4_cancel_preserves_cache_witness :
    pyStrip exampleState.tab.text ≠ "" ∧
    ((action_run_query exampleState 5 .cancelled).tab = exampleState.tab ∧
      (action_run_query exampleState 5 .cancelled).table
        = exampleState.table ∧
      (action_run_query exampleState 5 .cancelled).meta = "Query cancelled" ∧
      "Query cancelled" ≠ "Error occurred") :=
  ⟨by decide, C4_cancel_preserves_cache exampleState 5 (by decide)⟩

/-- C10: at startup the first tab's SQL buffer holds the SQL text of
the most recent history entry of the loaded config document, or the
empty string when the history is empty. -/
theorem C10_initial_sql (h : List HistoryEntry) (e : HistoryEntry)
    (sq : List SavedQuery) (cn : List ConnDescriptor) :
    (on_mount_first_tab ⟨h ++ [e], sq, cn⟩).text = e.sql ∧
    (on_mount_first_tab ⟨[], sq, cn⟩).text = "" := by
  constructor
  · show on_mount_initial_sql _ = e.sql
    unfold on_mount_initial_sql
    simp
  · rfl

theorem runMany_history (runs : List RunReq) :
    ∀ st : AppState, (∀ r ∈ runs, pyStrip r.sql ≠ "") →
      (runMany st runs).config.history
        = st.config.history ++ runs.map (fun r => ⟨pyStrip r.sql, r.now⟩) := by
  induction runs with
  | nil =>
    intro st _
    simp [runMany]
  | cons r rs ih =>
    intro st hne
    rw [runMany,
      ih _ (fun q hq => hne q (List.mem_cons_of_mem r hq)),
      run_history _ r.now r.signal (hne r (List.mem_cons_self r rs))]
    simp [setText]

/-- C5: a sequence of runs with non-empty (after trimming) SQL buffers
appends exactly one history entry per run, in execution order, each
holding the trimmed SQL text, regardless of how each execution ends;
and a run whose buffer is empty after trimming is a complete no-op. -/
theorem C5_history_order (st : AppState) (runs : List RunReq)
    (hne : ∀ r ∈ runs, pyStrip r.sql ≠ "")
    (st2 : AppState) (now2 : Nat) (sig2 : RunSignal)
    (hempty : pyStrip st2.tab.text = "") :
    (runMany st runs).config.history
      = st.config.history ++ runs.map (fun r => ⟨pyStrip r.sql, r.now⟩) ∧
    action_run_query st2 now2 sig2 = st2 :=
  ⟨runMany_history runs st hne, run_empty st2 now2 sig2 hempty⟩

/-- Witness for C5: two runs, the second of which fails, append their
two trimmed entries in order; a whitespace-only buffer is a no-op. -/
theorem C5_history_order_witness :
    pyStrip emptyTextState.tab.text = "" ∧
    ((runMany exampleState
        [RunReq.mk "SELECT 1" 1 (.completed (.rows ["a"] [])),
         RunReq.mk " BAD " 2 (.completed (.error "e"))]).config.history
      = exampleState.config.history
          ++ [RunReq.mk "SELECT 1" 1 (.completed (.rows ["a"] [])),
              RunReq.mk " BAD " 2 (.completed (.error "e"))].map
                (fun r => ⟨pyStrip r.sql, r.now⟩) ∧
      action_run_query emptyTextState 9 .cancelled = emptyTextState) :=
  ⟨by decide,
    C5_history_order exampleState
      [RunReq.mk "SELECT 1" 1 (.completed (.rows ["a"] [])),
       RunReq.mk " BAD " 2 (.completed (.error "e"))]
      (by decide) emptyTextState 9 .cancelled (by decide)⟩

theorem save_query_list_filter {name : String} (s : String) (t : Nat)
    {qs : List SavedQuery} (h : countName name qs ≤ 1) :
    (save_query_list name s t qs).filter (fun q => q.name = name)
      = [⟨name, pyStrip s, t⟩] := by
  induction qs with
  | nil => simp [save_query_list]
  | cons q qs ih =>
    by_cases hq : q.name = name
    · rw [save_query_list, if_pos hq, List.filter_cons]
      have hqs : qs.filter (fun q => decide (q.name = name)) = [] := by
        unfold countName at h
        rw [List.filter_cons, if_pos (by simp [hq]), List.length_cons] at h
        exact List.length_eq_zero.mp (by omega)
      simp [hqs]
    · rw [save_query_list, if_neg hq, List.filter_cons,
        if_neg (by simp [hq])]
      refine ih ?_
      unfold countName at h ⊢
      rwa [List.filter_cons, if_neg (by simp [hq])] at h

theorem save_query_list_length_of_mem {name : String} (s : String) (t : Nat)
    {qs : List SavedQuery} (h : 1 ≤ countName name qs) :
    (save_query_list name s t qs).length = qs.length := by
  induction qs with
  | nil =>
    unfold countName at h
    simp at h
  | cons q qs ih =>
    by_cases hq : q.name = name
    · rw [save_query_list, if_pos hq]
      rfl
    · rw [save_query_list, if_neg hq, List.length_cons, List.length_cons]
      refine congrArg Nat.succ (ih ?_)
      unfold countName at h ⊢
      rwa [List.filter_cons, if_neg (by simp [hq])] at h

/-- C6: saving a query twice under the same name with different SQL
texts leaves exactly one saved_queries entry carrying that name, and it
holds the latest trimmed SQL and the latest timestamp; the second save
overwrites in place instead of appending (the list length does not
grow). -/
theorem C6_upsert (cfg : Config) (name s1 s2 : String) (t1 t2 : Nat)
    (h : countName name cfg.saved_queries ≤ 1) :
    ((save_query name s2 t2 (save_query name s1 t1 cfg)).saved_queries).filter
        (fun q => q.name = name) = [⟨name, pyStrip s2, t2⟩] ∧
    ((save_query name s2 t2 (save_query name s1 t1 cfg)).saved_queries).length
      = ((save_query name s1 t1 cfg).saved_queries).length := by
  have hcount1 :
      countName name (save_query_list name s1 t1 cfg.saved_queries) = 1 := by
    unfold countName
    rw [save_query_list_filter s1 t1 h]
    rfl
  exact ⟨save_query_list_filter s2 t2 (Nat.le_of_eq hcount1),
    save_query_list_length_of_mem s2 t2 (Nat.le_of_eq hcount1.symm)⟩

/-- Witness for C6 on a config holding one unrelated saved query. -/
theorem C6_upsert_witness :
    countName "n" (Config.mk [] [⟨"other", "q", 0⟩] []).saved_queries ≤ 1 ∧
    (((save_query "n" " B " 2
          (save_query "n" "A" 1 (Config.mk [] [⟨"other", "q", 0⟩] []))).saved_queries).filter
        (fun q => q.name = "n") = [⟨"n", pyStrip " B ", 2⟩] ∧
      ((save_query "n" " B " 2
          (save_query "n" "A" 1 (Config.mk [] [⟨"other", "q", 0⟩] []))).saved_queries).length
        = ((save_query "n" "A" 1 (Config.mk [] [⟨"other", "q", 0⟩] [])).saved_queries).length) :=
  ⟨by decide, C6_upsert (Config.mk [] [⟨"other", "q", 0⟩] []) "n" "A" " B " 1 2 (by decide)⟩

/-- C7: after a successful execution returning a result set with N
columns, the column state map holds exactly one entry per column index
0..N-1, in order, each equal to the default state (empty filter, no
sort); nothing of the previous column state survives. -/
theorem C7_state_reset (st : AppState) (now : Nat) (cols : List String)
    (data : List (List Cell)) (h : pyStrip st.tab.text ≠ "") :
    ((action_run_query st now
        (.completed (.rows cols data))).tab.col_states).map Prod.fst
      = List.range cols.length ∧
    ((action_run_query st now
        (.completed (.rows cols data))).tab.col_states).map Prod.snd
      = List.replicate cols.length ⟨"", none⟩ := by
  rw [run_rows_tab st now cols data h]
  constructor
  · show (defaultColStates cols.length).map Prod.fst = _
    unfold defaultColStates
    rw [List.map_map,
      show (Prod.fst ∘ fun i => (i, (⟨"", none⟩ : ColState)))
          = fun i => i from rfl,
      List.map_id']
  · show (defaultColStates cols.length).map Prod.snd = _
    unfold defaultColStates
    rw [List.map_map,
      show (Prod.snd ∘ fun i => (i, (⟨"", none⟩ : ColState)))
          = fun _ => (⟨"", none⟩ : ColState) from rfl,
      List.map_const', List.length_range]

/-- Witness for C7: a run over a tab with a filtered and sorted column
state, returning two columns, yields two fresh default entries. -/
theorem C7_state_reset_witness :
    pyStrip exampleState.tab.text ≠ "" ∧
    (((action_run_query exampleState 4
        (.completed (.rows ["a", "b"] []))).tab.col_states).map Prod.fst
      = List.range (["a", "b"] : List String).length ∧
    ((action_run_query exampleState 4
        (.completed (.rows ["a", "b"] []))).tab.col_states).map Prod.snd
      = List.replicate (["a", "b"] : List String).length ⟨"", none⟩) :=
  ⟨by decide, C7_state_reset exampleState 4 ["a", "b"] [] (by decide)⟩

theorem on_header_eq (states : ColStates) (idx : Nat) :
    on_header_selected states idx
      = states.map (fun p =>
          (p.1, (⟨p.2.filter,
            if p.1 = idx
            then cycleSort ((states.lookup idx).bind (fun s => s.sort))
            else none⟩ : ColState))) := by
  unfold on_header_selected
  rw [List.map_map]
  refine congrArg (fun f => List.map f states) ?_
  funext p
  by_cases hp : p.1 = idx <;> simp [hp, Function.comp_def]

theorem mapped_sort_count (l : ColStates) (idx : Nat) (v : Option SortDir)
    (h : (l.map Prod.fst).Nodup) :
    ((l.map (fun p => (p.1, (⟨p.2.filter,
          if p.1 = idx then v else none⟩ : ColState)))).filter
        (fun p => p.2.sort.isSome)).length ≤ 1 := by
  induction l with
  | nil => simp
  | cons q qs ih =>
    rw [List.map_cons, List.nodup_cons] at h
    obtain ⟨hq1, hqs⟩ := h
    rw [List.map_cons, List.filter_cons]
    by_cases hq : q.1 = idx
    · have htail :
          (qs.map (fun p => (p.1, (⟨p.2.filter,
              if p.1 = idx then v else none⟩ : ColState)))).filter
            (fun p => p.2.sort.isSome) = [] := by
        rw [List.filter_eq_nil_iff]
        intro a ha
        obtain ⟨p, hp, rfl⟩ := List.mem_map.mp ha
        have hpi : p.1 ≠ idx := by
          intro hpi
          exact hq1 (by
            rw [hq, ← hpi]
            exact List.mem_map_of_mem Prod.fst hp)
        simp [hpi]
      rw [if_pos hq, htail]
      cases hv : v.isSome <;> simp [hv]
    · rw [if_neg hq, if_neg (by simp)]
      exact ih hqs

theorem mapped_sort_offidx (l : ColStates) (idx : Nat) (v : Option SortDir) :
    (l.map (fun p => (p.1, (⟨p.2.filter,
        if p.1 = idx then v else none⟩ : ColState)))).filter
      (fun p => decide (p.1 ≠ idx) && p.2.sort.isSome) = [] := by
  rw [List.filter_eq_nil_iff]
  intro a ha
  obtain ⟨p, hp, rfl⟩ := List.mem_map.mp ha
  by_cases hpi : p.1 = idx <;> simp [hpi]

/-- C8: a sort toggle first clears every column's sort and then stores
the cycled direction on the clicked column, so afterwards at most one
entry of the column state map carries an active sort, and every entry
other than the clicked column carries none. -/
theorem C8_single_sort (states : ColStates) (idx : Nat)
    (h : (states.map Prod.fst).Nodup) :
    ((on_header_selected states idx).filter
        (fun p => p.2.sort.isSome)).length ≤ 1 ∧
    (on_header_selected states idx).filter
        (fun p => decide (p.1 ≠ idx) && p.2.sort.isSome) = [] := by
  rw [on_header_eq states idx]
  exact ⟨mapped_sort_count states idx _ h, mapped_sort_offidx states idx _⟩

/-- Witness for C8: toggling column 0 of a map where both columns are
sorted leaves at most column 0 sorted. -/
theorem C8_single_sort_witness :
    (([(0, (⟨"", some .asc⟩ : ColState)),
       (1, ⟨"x", some .desc⟩)] : ColStates).map Prod.fst).Nodup ∧
    (((on_header_selected
          [(0, ⟨"", some .asc⟩), (1, ⟨"x", some .desc⟩)] 0).filter
        (fun p => p.2.sort.isSome)).length ≤ 1 ∧
      (on_header_selected
          [(0, ⟨"", some .asc⟩), (1, ⟨"x", some .desc⟩)] 0).filter
        (fun p => decide (p.1 ≠ 0) && p.2.sort.isSome) = []) :=
  ⟨by decide,
    C8_single_sort [(0, ⟨"", some .asc⟩), (1, ⟨"x", some .desc⟩)] 0
      (by decide)⟩

/-- C9 counterexample: sorting a column that mixes an integer cell with
a NULL cell raises a TypeError (the NULL is keyed as the empty string,
which Python cannot compare with an integer), so the projection fails
instead of never failing. -/
theorem C9_counterexample : projectRows mixedTab = none := by decide

/-- C9 (amended): when the active sort column of the filtered rows
holds only strings and NULLs, the projection succeeds and equals the
spec-side projection: the stable sort of the filtered rows by that
column's key, with a NULL keyed as the empty (lowest) string, ascending
or descending per the sort direction; with no active sort it returns
the filtered rows in cache order.  (On a column mixing NULLs with
non-string values the sort raises a TypeError, per the
counterexample.) -/
theorem C9_projection (tab : Tab)
    (h : ((activeSort tab.col_states).all (fun p =>
        (applyFilters tab.col_states tab.full_data).all (fun r =>
          strOrNull (r.getD p.1 Cell.null)))) = true) :
    projectRows tab = some (projectSpec tab) := by
  unfold projectRows projectSpec
  dsimp only
  cases hA : activeSort tab.col_states with
  | none => rfl
  | some p =>
    obtain ⟨i, dir⟩ := p
    rw [hA, Option.all_some, List.all_eq_true] at h
    exact sortM_eq_sSort (fun x hx y hy =>
      rowLt_eq_spec (h x hx) (h y hy))

/-- Witness for C9: a string/NULL column sorts ascending with the NULL
row keyed lowest. -/
theorem C9_projection_witness :
    ((activeSort sortedTab.col_states).all (fun p =>
        (applyFilters sortedTab.col_states sortedTab.full_data).all (fun r =>
          strOrNull (r.getD p.1 Cell.null)))) = true ∧
    projectRows sortedTab = some (projectSpec sortedTab) :=
  ⟨by decide, C9_projection sortedTab (by decide)⟩

end Openduck
